import Mathlib

/-!
Shallow embedding of the Haliax training-data pipeline core
(`src/Engine/NeuralNetwork/dataset.py`): the dihedral-symmetry transform
engine (geometry primitives, board-tensor transform, cell-vector
permutation, direction-vector remapping), the binary record-stream reader
for `.takbin` files, and the augmented-sample producer.

Python integers are modelled as `Nat` (all values reached by the claims
are non-negative; subtractions such as `BOARD_N - 1 - r` never truncate
for in-range arguments), float32 probability values as `ℚ`, raw on-disk
bytes as `Nat`, and a raw float32 word as its 4-byte group (`List Nat`),
kept opaque (no IEEE-754 interpretation is ever needed: the reader and
the transforms only move words around). Python exceptions are modelled
with `Option`/`Except`.
-/

/-- Board side length (`BOARD_N = 6` in `dataset.py`). -/
def BOARD_N : Nat := 6

/-- `idx_to_rc`: `divmod(idx, BOARD_N)`, row-major index to (row, col). -/
def idx_to_rc (idx : Nat) : Nat × Nat := (idx / BOARD_N, idx % BOARD_N)

/-- `rc_to_idx`: (row, col) to row-major index. -/
def rc_to_idx (r c : Nat) : Nat := r * BOARD_N + c

/-- `transform_rc`: dihedral transform of coordinates. `rot` = 0/1/2/3
quarter turns clockwise, then a horizontal (column) mirror if `flip`.
`none` models the `ValueError` raised for `rot` outside `0..3`. -/
def transform_rc (r c rot : Nat) (flip : Bool) : Option (Nat × Nat) :=
  match (if rot = 0 then some (r, c)
         else if rot = 1 then some (c, BOARD_N - 1 - r)
         else if rot = 2 then some (BOARD_N - 1 - r, BOARD_N - 1 - c)
         else if rot = 3 then some (BOARD_N - 1 - c, r)
         else none) with
  | none => none
  | some (rr, cc) => some (rr, if flip then BOARD_N - 1 - cc else cc)

/-- `transform_index`: transform a row-major board index. -/
def transform_index (idx rot : Nat) (flip : Bool) : Option Nat :=
  (transform_rc (idx_to_rc idx).1 (idx_to_rc idx).2 rot flip).map
    (fun p => rc_to_idx p.1 p.2)

/-- `permute_policy_pos`: allocate an output vector of the same length
(`torch.empty_like`, modelled zero-filled: for `rot ∈ 0..3` every slot is
overwritten below, and otherwise the loop aborts), then for each
`i < 36` write `out[transform_index i rot flip] = p[i]`. -/
def permute_policy_pos (p : List ℚ) (rot : Nat) (flip : Bool) : Option (List ℚ) :=
  (List.range (BOARD_N * BOARD_N)).foldlM
    (fun out i => (transform_index i rot flip).bind
      (fun j => (p[i]?).map (fun v => out.set j v)))
    (List.replicate p.length 0)

/-- Helper (proof infrastructure): the index map of `transform_index`
made total, with junk value 0 outside `rot < 4`. -/
def tIdxFun (rot : Nat) (flip : Bool) (i : Nat) : Nat :=
  (transform_index i rot flip).getD 0

lemma tIdx_some_aux : ∀ (rot : Fin 4) (flip : Bool) (i : Fin 36),
    transform_index i rot flip = some (tIdxFun rot flip i) ∧ tIdxFun rot flip i < 36 := by
  decide

lemma tIdx_some (rot : Nat) (flip : Bool) (i : Nat) (hrot : rot < 4) (hi : i < 36) :
    transform_index i rot flip = some (tIdxFun rot flip i) :=
  (tIdx_some_aux ⟨rot, hrot⟩ flip ⟨i, hi⟩).1

lemma tIdx_lt (rot : Nat) (flip : Bool) (i : Nat) (hrot : rot < 4) (hi : i < 36) :
    tIdxFun rot flip i < 36 :=
  (tIdx_some_aux ⟨rot, hrot⟩ flip ⟨i, hi⟩).2

lemma tIdx_inj_aux : ∀ (rot : Fin 4) (flip : Bool) (i j : Fin 36),
    tIdxFun rot flip i = tIdxFun rot flip j → (i : Nat) = j := by
  decide

lemma tIdx_inj (rot : Nat) (flip : Bool) (i j : Nat) (hrot : rot < 4)
    (hi : i < 36) (hj : j < 36) (h : tIdxFun rot flip i = tIdxFun rot flip j) : i = j :=
  tIdx_inj_aux ⟨rot, hrot⟩ flip ⟨i, hi⟩ ⟨j, hj⟩ h

lemma foldlM_option_eq_foldl {α β : Type} (f : β → α → Option β) (g : β → α → β)
    (l : List α) (h : ∀ b a, a ∈ l → f b a = some (g b a)) (b : β) :
    l.foldlM f b = some (l.foldl g b) := by
  induction l generalizing b with
  | nil => rfl
  | cons a t ih =>
    have h1 := h b a (List.mem_cons_self a t)
    simp only [List.foldlM_cons, h1, Option.bind_eq_bind, Option.some_bind, List.foldl_cons]
    exact ih (fun b2 a2 ha => h b2 a2 (List.mem_cons_of_mem a ha)) (g b a)

lemma foldl_set_length (g : Nat → Nat) (v : Nat → ℚ) (l : List Nat) (init : List ℚ) :
    (l.foldl (fun acc k => acc.set (g k) (v k)) init).length = init.length := by
  induction l generalizing init with
  | nil => rfl
  | cons a t ih => simp only [List.foldl_cons]; rw [ih, List.length_set]

lemma foldl_set_getD (g : Nat → Nat) (v : Nat → ℚ) (m : Nat) (n : Nat) :
    ∀ (init : List ℚ), init.length = m →
    (∀ i, i < n → g i < m) →
    (∀ i j, i < n → j < n → g i = g j → i = j) →
    ∀ i, i < n →
    ((List.range n).foldl (fun acc k => acc.set (g k) (v k)) init).getD (g i) 0 = v i := by
  induction n with
  | zero => intro init _ _ _ i hi; exact absurd hi (Nat.not_lt_zero i)
  | succ nn ih =>
    intro init hlen hlt hinj i hi
    rw [List.range_succ, List.foldl_append]
    simp only [List.foldl_cons, List.foldl_nil]
    by_cases hin : i = nn
    · rw [hin]
      have hglt : g nn < ((List.range nn).foldl (fun acc k => acc.set (g k) (v k)) init).length := by
        rw [foldl_set_length, hlen]; exact hlt nn (by omega)
      rw [List.getD_eq_getElem?_getD, List.getElem?_set_eq_of_lt _ hglt]; rfl
    · have hne : g nn ≠ g i := fun he => hin (hinj i nn (by omega) (by omega) he.symm)
      rw [List.getD_eq_getElem?_getD, List.getElem?_set_ne hne, ← List.getD_eq_getElem?_getD]
      exact ih init hlen (fun k hk => hlt k (by omega))
        (fun a b ha hb => hinj a b (by omega) (by omega)) i (by omega)

/-- Master lemma: for a valid rotation and a length-36 vector,
`permute_policy_pos` succeeds, preserves the length, and places `p[i]`
at index `transform_index i rot flip`. -/
lemma permute_spec (p : List ℚ) (rot : Nat) (flip : Bool) (hrot : rot < 4)
    (hp : p.length = 36) :
    ∃ out, permute_policy_pos p rot flip = some out ∧ out.length = 36 ∧
      ∀ i, i < 36 → out.getD (tIdxFun rot flip i) 0 = p.getD i 0 := by
  have hfold := foldlM_option_eq_foldl
    (fun out i => (transform_index i rot flip).bind
      (fun j => (p[i]?).map (fun v => out.set j v)))
    (fun out i => out.set (tIdxFun rot flip i) (p.getD i 0))
    (List.range (BOARD_N * BOARD_N))
    (by
      intro b i hi
      have hi36 : i < 36 := by
        have := List.mem_range.mp hi
        simpa [BOARD_N] using this
      have h1 := tIdx_some rot flip i hrot hi36
      have hip : i < p.length := by omega
      have h2 : p[i]? = some (p.getD i 0) := by
        rw [List.getElem?_eq_getElem hip, List.getD_eq_getElem _ _ hip]
      show (transform_index i rot flip).bind (fun j => (p[i]?).map (fun v => b.set j v))
          = some (b.set (tIdxFun rot flip i) (p.getD i 0))
      rw [h1, h2]
      rfl)
    (List.replicate p.length 0)
  refine ⟨_, hfold, ?_, ?_⟩
  · rw [foldl_set_length, List.length_replicate, hp]
  · have h36 : BOARD_N * BOARD_N = 36 := rfl
    rw [h36]
    exact foldl_set_getD (tIdxFun rot flip) (fun i => p.getD i 0) 36 36
      (List.replicate p.length 0) (by rw [List.length_replicate, hp])
      (fun i hi => tIdx_lt rot flip i hrot hi)
      (fun i j hi hj => tIdx_inj rot flip i j hrot hi hj)

lemma list_sum_getD (l : List ℚ) : l.sum = ∑ i in Finset.range l.length, l.getD i 0 := by
  induction l with
  | nil => simp
  | cons a t ih =>
    rw [List.sum_cons, List.length_cons, Finset.sum_range_succ']
    simp only [List.getD_cons_succ, List.getD_cons_zero]
    rw [ih]
    ring

/-- Mass conservation for `permute_policy_pos`: the output is the input
reindexed along a bijection of `Fin 36`, so the sums agree. -/
lemma permute_sum (p : List ℚ) (rot : Nat) (flip : Bool) (hrot : rot < 4)
    (hp : p.length = 36) :
    ∃ out, permute_policy_pos p rot flip = some out ∧ out.sum = p.sum := by
  obtain ⟨out, hout, hlen, hspec⟩ := permute_spec p rot flip hrot hp
  refine ⟨out, hout, ?_⟩
  have hinj : Function.Injective (fun i : Fin 36 =>
      (⟨tIdxFun rot flip i, tIdx_lt rot flip i hrot i.isLt⟩ : Fin 36)) := by
    intro a b hab
    have : tIdxFun rot flip a = tIdxFun rot flip b := congrArg Fin.val hab
    exact Fin.ext (tIdx_inj rot flip a b hrot a.isLt b.isLt this)
  have hbij := Finite.injective_iff_bijective.mp hinj
  have hcomp := hbij.sum_comp (fun j : Fin 36 => out.getD j 0)
  calc out.sum = ∑ j in Finset.range out.length, out.getD j 0 := list_sum_getD out
    _ = ∑ j : Fin 36, out.getD j 0 := by
        rw [hlen, ← Fin.sum_univ_eq_sum_range]
    _ = ∑ i : Fin 36, out.getD (tIdxFun rot flip i) 0 := hcomp.symm
    _ = ∑ i : Fin 36, p.getD i 0 := by
        exact Finset.sum_congr rfl (fun i _ => hspec i i.isLt)
    _ = ∑ i in Finset.range p.length, p.getD i 0 := by
        rw [hp, ← Fin.sum_univ_eq_sum_range]
    _ = p.sum := (list_sum_getD p).symm

/-- The four canonical direction offsets, encoding 0=N, 1=E, 2=S, 3=W
(`vecs` in `remap_dirs_probs`). -/
def vecs : List (Int × Int) := [(-1, 0), (0, 1), (1, 0), (0, -1)]

/-- `apply_to_vec` inside `remap_dirs_probs`: transform a direction
offset by transforming the cell (2,2) and its neighbour (2+dr, 2+dc) and
taking the coordinate delta. The neighbour coordinates are 1..3 for the
canonical offsets, so the `Int.toNat` conversions are exact. -/
def apply_to_vec (dr dc : Int) (rot : Nat) (flip : Bool) : Option (Int × Int) :=
  match transform_rc 2 2 rot flip, transform_rc (2 + dr).toNat (2 + dc).toNat rot flip with
  | some tr0, some tr1 => some (((tr1.1 : Int) - (tr0.1 : Int), (tr1.2 : Int) - (tr0.2 : Int)))
  | _, _ => none

/-- `vec_to_idx`: exact lookup of a delta among the 4 canonical offsets
(`dict.get` with default `None`). -/
def vec_to_idx (v : Int × Int) : Option Nat :=
  if v = (-1, 0) then some 0
  else if v = (0, 1) then some 1
  else if v = (1, 0) then some 2
  else if v = (0, -1) then some 3
  else none

/-- The loop body of `remap_dirs_probs` after the delta is computed:
`j = vec_to_idx.get(delta, None); if j is None: continue; out[j] += d[i]`.
A missing lookup silently skips the direction (the `continue`). -/
def remap_accum (d out : List ℚ) (i : Nat) (delta : Int × Int) : Option (List ℚ) :=
  match vec_to_idx delta with
  | none => some out
  | some j => (d[i]?).map (fun v => out.set j (out.getD j 0 + v))

/-- `remap_dirs_probs`: start from `torch.zeros_like(d)` and accumulate
each direction's mass at its transformed direction index. -/
def remap_dirs_probs (d : List ℚ) (rot : Nat) (flip : Bool) : Option (List ℚ) :=
  vecs.enum.foldlM
    (fun out iv => (apply_to_vec iv.2.1 iv.2.2 rot flip).bind (remap_accum d out iv.1))
    (List.replicate d.length 0)

lemma list_len4 {α : Type} : ∀ (d : List α), d.length = 4 → ∃ a b c e, d = [a, b, c, e]
  | [a, b, c, e], _ => ⟨a, b, c, e, rfl⟩
  | [], h => absurd h (by simp)
  | [_], h => absurd h (by simp)
  | [_, _], h => absurd h (by simp)
  | [_, _, _], h => absurd h (by simp)
  | _ :: _ :: _ :: _ :: _ :: _, h => absurd h (by simp)

/-- `remap_dirs_probs` succeeds on every valid rotation and conserves
total mass. -/
lemma remap_spec (d : List ℚ) (rot : Nat) (flip : Bool) (hrot : rot < 4)
    (hd : d.length = 4) :
    ∃ out, remap_dirs_probs d rot flip = some out ∧ out.sum = d.sum := by
  obtain ⟨a, b, c, e, rfl⟩ := list_len4 d hd
  interval_cases rot <;> cases flip <;> refine ⟨_, rfl, ?_⟩ <;> simp <;> ring

/-- The identity operation leaves the direction vector unchanged. -/
lemma remap_id (d : List ℚ) (hd : d.length = 4) :
    remap_dirs_probs d 0 false = some d := by
  obtain ⟨a, b, c, e, rfl⟩ := list_len4 d hd
  have h1 : remap_dirs_probs [a, b, c, e] 0 false = some [0 + a, 0 + b, 0 + c, 0 + e] := rfl
  rw [h1]
  norm_num

/-- One application of the natively counter-clockwise `torch.rot90` on
the (H, W) axes of a (C, H, W) tensor modelled as a function:
`out[ch][i][j] = in[ch][j][N-1-i]`. -/
def rot90_ccw {α : Type} (x : Nat → Nat → Nat → α) : Nat → Nat → Nat → α :=
  fun ch r c => x ch c (BOARD_N - 1 - r)

/-- `torch.rot90(x, k, dims=(1,2))`: `k` counter-clockwise quarter turns. -/
def torch_rot90 {α : Type} (x : Nat → Nat → Nat → α) : Nat → (Nat → Nat → Nat → α)
  | 0 => x
  | k + 1 => rot90_ccw (torch_rot90 x k)

/-- `torch.flip(x, dims=(2,))`: mirror the last (column) axis. -/
def torch_flip_w {α : Type} (x : Nat → Nat → Nat → α) : Nat → Nat → Nat → α :=
  fun ch r c => x ch r (BOARD_N - 1 - c)

/-- `transform_board_tensor_cw`: drive the counter-clockwise primitive
with the complementary amount `k_ccw = (-rot_cw) % 4` to realize a
clockwise rotation, then mirror the column axis if `flip`. -/
def transform_board_tensor_cw {α : Type} (x : Nat → Nat → Nat → α) (rot_cw : Nat)
    (flip : Bool) : Nat → Nat → Nat → α :=
  let k_ccw := ((-(rot_cw : Int)) % 4).toNat
  let x1 := if k_ccw ≠ 0 then torch_rot90 x k_ccw else x
  if flip then torch_flip_w x1 else x1

lemma rot90_ccw_apply {α : Type} (x : Nat → Nat → Nat → α) (ch r c : Nat) :
    rot90_ccw x ch r c = x ch c (BOARD_N - 1 - r) := rfl

lemma torch_flip_w_apply {α : Type} (x : Nat → Nat → Nat → α) (ch r c : Nat) :
    torch_flip_w x ch r c = x ch r (BOARD_N - 1 - c) := rfl

/-- Master lemma for the tensor/index-algebra agreement: for every valid
dihedral operation, the tensor transform puts the value of cell (r, c)
of every channel at the cell computed by `transform_rc`. -/
lemma transform_board_correct {α : Type} (x : Nat → Nat → Nat → α) (rot : Nat)
    (flip : Bool) (ch r c rr cc : Nat) (hrot : rot < 4) (hr : r < 6) (hc : c < 6)
    (h : transform_rc r c rot flip = some (rr, cc)) :
    transform_board_tensor_cw x rot flip ch rr cc = x ch r c := by
  interval_cases rot <;> cases flip <;>
    (simp [transform_rc, BOARD_N, Prod.mk.injEq] at h
     obtain ⟨rfl, rfl⟩ := h
     try simp [transform_board_tensor_cw, BOARD_N]
     try simp [torch_rot90, rot90_ccw_apply, torch_flip_w_apply, BOARD_N]
     all_goals first
       | rfl
       | (congr 1 <;> omega))

/-- The identity operation is a pass-through of the tensor. -/
lemma transform_board_id {α : Type} (x : Nat → Nat → Nat → α) :
    transform_board_tensor_cw x 0 false = x := by
  simp [transform_board_tensor_cw]

lemma tIdx_id_aux : ∀ i : Fin 36, tIdxFun 0 false i = i := by decide

/-- The identity operation leaves a cell-indexed vector unchanged. -/
lemma permute_id (p : List ℚ) (hp : p.length = 36) :
    permute_policy_pos p 0 false = some p := by
  obtain ⟨out, hout, hlen, hspec⟩ := permute_spec p 0 false (by omega) hp
  have hop : out = p := by
    apply List.ext_getElem (by rw [hlen, hp])
    intro i hi1 hi2
    have hi36 : i < 36 := by omega
    have hv := hspec i hi36
    have hid : tIdxFun 0 false i = i := tIdx_id_aux ⟨i, hi36⟩
    rw [hid, List.getD_eq_getElem _ _ hi1, List.getD_eq_getElem _ _ hi2] at hv
    exact hv
  rw [hout, hop]

/-- A decoded raw record at the transform-engine level: the board tensor
as a (channel, row, col)-indexed function, the six target vectors and
the scalar outcome, with float32 values modelled as rationals. -/
structure RawRecord where
  board : Nat → Nat → Nat → ℚ
  place_pos : List ℚ
  place_type : List ℚ
  slide_from : List ℚ
  slide_dir : List ℚ
  slide_pickup : List ℚ
  slide_len : List ℚ
  z : ℚ

/-- One iteration of the augmentation loop body of
`TakBinDataset.__iter__`: transform the board tensor and the two
cell-indexed vectors and the direction vector, pass the three
categorical vectors and the outcome through unchanged. -/
def applyOp (rec : RawRecord) (rot : Nat) (flip : Bool) : Option RawRecord :=
  (permute_policy_pos rec.place_pos rot flip).bind (fun pp =>
  (permute_policy_pos rec.slide_from rot flip).bind (fun sf =>
  (remap_dirs_probs rec.slide_dir rot flip).map (fun sd =>
    { board := transform_board_tensor_cw rec.board rot flip
      place_pos := pp
      place_type := rec.place_type
      slide_from := sf
      slide_dir := sd
      slide_pickup := rec.slide_pickup
      slide_len := rec.slide_len
      z := rec.z })))

/-- The enumeration order of the two nested loops
`for rot in (0,1,2,3): for flip in (False, True)`: rotation outer,
flip inner. -/
def symPairs : List (Nat × Bool) :=
  [(0, false), (0, true), (1, false), (1, true),
   (2, false), (2, true), (3, false), (3, true)]

/-- The 8 samples yielded for one raw record when `augment=True`. -/
def augmentSamples (rec : RawRecord) : Option (List RawRecord) :=
  symPairs.mapM (fun p => applyOp rec p.1 p.2)

/-- The samples yielded for one raw record: the raw record itself when
`augment=False`, the 8 symmetric variants otherwise. -/
def producerSamples (augment : Bool) (rec : RawRecord) : Option (List RawRecord) :=
  if augment then augmentSamples rec else some [rec]

lemma applyOp_some (rec : RawRecord) (rot : Nat) (flip : Bool) (hrot : rot < 4)
    (h1 : rec.place_pos.length = 36) (h2 : rec.slide_from.length = 36)
    (h3 : rec.slide_dir.length = 4) : ∃ s, applyOp rec rot flip = some s := by
  obtain ⟨pp, hpp, -, -⟩ := permute_spec rec.place_pos rot flip hrot h1
  obtain ⟨sf, hsf, -, -⟩ := permute_spec rec.slide_from rot flip hrot h2
  obtain ⟨sd, hsd, -⟩ := remap_spec rec.slide_dir rot flip hrot h3
  refine ⟨{ board := transform_board_tensor_cw rec.board rot flip, place_pos := pp,
            place_type := rec.place_type, slide_from := sf, slide_dir := sd,
            slide_pickup := rec.slide_pickup, slide_len := rec.slide_len,
            z := rec.z }, ?_⟩
  simp [applyOp, hpp, hsf, hsd]

lemma applyOp_fields (rec s : RawRecord) (rot : Nat) (flip : Bool)
    (h : applyOp rec rot flip = some s) :
    s.place_type = rec.place_type ∧ s.slide_pickup = rec.slide_pickup ∧
    s.slide_len = rec.slide_len ∧ s.z = rec.z ∧
    s.board = transform_board_tensor_cw rec.board rot flip := by
  simp only [applyOp] at h
  cases hpp : permute_policy_pos rec.place_pos rot flip with
  | none => rw [hpp] at h; simp at h
  | some pp =>
    rw [hpp] at h
    cases hsf : permute_policy_pos rec.slide_from rot flip with
    | none => rw [hsf] at h; simp at h
    | some sf =>
      rw [hsf] at h
      cases hsd : remap_dirs_probs rec.slide_dir rot flip with
      | none => rw [hsd] at h; simp at h
      | some sd =>
        rw [hsd] at h
        simp only [Option.some_bind, Option.map_some'] at h
        obtain rfl := Option.some_injective _ h
        exact ⟨rfl, rfl, rfl, rfl, rfl⟩

/-- The identity element of the group reproduces the raw record exactly. -/
lemma applyOp_id (rec : RawRecord)
    (h1 : rec.place_pos.length = 36) (h2 : rec.slide_from.length = 36)
    (h3 : rec.slide_dir.length = 4) : applyOp rec 0 false = some rec := by
  have hpp := permute_id rec.place_pos h1
  have hsf := permute_id rec.slide_from h2
  have hsd := remap_id rec.slide_dir h3
  simp [applyOp, hpp, hsf, hsd, transform_board_id]

/-- Evaluation of the 8-way augmentation: it succeeds, yields exactly 8
samples in rotation-outer flip-inner order (sample `k` is the transform
by rotation `k / 2`, flip `k % 2 == 1`), and its first sample is the raw
record. -/
lemma augment_eval (rec : RawRecord)
    (h1 : rec.place_pos.length = 36) (h2 : rec.slide_from.length = 36)
    (h3 : rec.slide_dir.length = 4) :
    ∃ l, augmentSamples rec = some l ∧ l.length = 8 ∧ l.head? = some rec ∧
      ∀ k, k < 8 → l[k]? = applyOp rec (k / 2) (k % 2 == 1) := by
  have e0 := applyOp_id rec h1 h2 h3
  obtain ⟨s1, e1⟩ := applyOp_some rec 0 true (by omega) h1 h2 h3
  obtain ⟨s2, e2⟩ := applyOp_some rec 1 false (by omega) h1 h2 h3
  obtain ⟨s3, e3⟩ := applyOp_some rec 1 true (by omega) h1 h2 h3
  obtain ⟨s4, e4⟩ := applyOp_some rec 2 false (by omega) h1 h2 h3
  obtain ⟨s5, e5⟩ := applyOp_some rec 2 true (by omega) h1 h2 h3
  obtain ⟨s6, e6⟩ := applyOp_some rec 3 false (by omega) h1 h2 h3
  obtain ⟨s7, e7⟩ := applyOp_some rec 3 true (by omega) h1 h2 h3
  refine ⟨[rec, s1, s2, s3, s4, s5, s6, s7], ?_, rfl, rfl, ?_⟩
  · simp [augmentSamples, symPairs, List.mapM.loop, e0, e1, e2, e3, e4, e5, e6, e7]
  · intro k hk
    interval_cases k <;> simp [e0, e1, e2, e3, e4, e5, e6, e7]

/-- A raw little-endian float32 value, modelled as its 4-byte group and
kept opaque: the reader and the transforms only move float32 words
around, never interpret them. -/
abbrev Word := List Nat

/-- The 8-byte magic token `b"TAKDATA1"`. -/
def MAGIC : List Nat := [0x54, 0x41, 0x4B, 0x44, 0x41, 0x54, 0x41, 0x31]

/-- `struct.unpack("<I", ...)`: decode a little-endian unsigned 32-bit
integer; `none` models the `struct.error` raised on a short read. -/
def le32_decode : List Nat → Option Nat
  | [b0, b1, b2, b3] => some (b0 + 256 * (b1 + 256 * (b2 + 256 * b3)))
  | _ => none

/-- Group a byte string into consecutive 4-byte float32 words (the
element grouping performed by `np.frombuffer(..., dtype=np.float32)`). -/
def chunkWords : List Nat → List Word
  | b0 :: b1 :: b2 :: b3 :: rest => [b0, b1, b2, b3] :: chunkWords rest
  | _ => []

/-- `np.frombuffer(buf, dtype=np.float32)`: fails (`ValueError`) unless
the buffer length is a multiple of the 4-byte element size. -/
def np_frombuffer_f32 (b : List Nat) : Option (List Word) :=
  if b.length % 4 = 0 then some (chunkWords b) else none

/-- Error kinds raised by the reader, by Python exception class:
`badMagic` is the `ValueError` for a wrong magic token, `structError` is
`struct.error` on a short header read, `valueError` is the `ValueError`
from `np.frombuffer`/`reshape` on a short board-tensor read, and
`truncatedRecord` is `EOFError("Truncated record")` from `read_arr`. -/
inductive DatasetError
  | badMagic
  | structError
  | valueError
  | truncatedRecord
deriving DecidableEq

/-- A decoded record at the reader level: the board tensor as a
(channel, row, col)-indexed function into raw float32 words, the six
target word vectors in on-disk order, and the outcome word. -/
structure SampleW where
  board : Nat → Nat → Nat → Word
  place_pos : List Word
  place_type : List Word
  slide_from : List Word
  slide_dir : List Word
  slide_pickup : List Word
  slide_len : List Word
  z : Word

/-- `read_arr(n)`: read `4*n` bytes, raise `EOFError("Truncated
record")` when the read is short, else decode the `n` float32 words
(`np.frombuffer` on a full buffer is exactly the 4-byte grouping);
also returns the remaining stream. -/
def read_arr (s : List Nat) (n : Nat) : Except DatasetError (List Word × List Nat) :=
  if (s.take (4 * n)).length ≠ 4 * n then .error .truncatedRecord
  else .ok (chunkWords (s.take (4 * n)), s.drop (4 * n))

/-- Row-major semantics of `.reshape(BOARD_N, BOARD_N, channels_in)`:
element (r, c, ch) of the (6, 6, C) view is flat element (r*6+c)*C+ch. -/
def np_reshape_hwc (flat : List Word) (C : Nat) : Nat → Nat → Nat → Word :=
  fun r c ch => flat.getD ((r * BOARD_N + c) * C + ch) []

/-- `torch.from_numpy(x).permute(2, 0, 1)`: view the (H, W, C) array
with axes reordered to (C, H, W). -/
def torch_permute_201 (a : Nat → Nat → Nat → Word) : Nat → Nat → Nat → Word :=
  fun ch r c => a r c ch

/-- One iteration of the streaming loop of `TakBinDataset.__iter__`:
attempt to read one full board-tensor block (`.ok none` models `break`
on a zero-byte read: clean end of stream), decode it via
`np.frombuffer` + `reshape` (whose `ValueError`s a short non-empty read
triggers), then read the six target vectors and the outcome scalar. -/
def readRecord (C : Nat) (s : List Nat) :
    Except DatasetError (Option (SampleW × List Nat)) :=
  let feat_n := BOARD_N * BOARD_N * C
  let buf := s.take (4 * feat_n)
  if buf = [] then .ok none
  else
    match np_frombuffer_f32 buf with
    | none => .error .valueError
    | some flat =>
      if flat.length ≠ BOARD_N * BOARD_N * C then .error .valueError
      else do
        let pr1 ← read_arr (s.drop (4 * feat_n)) 36
        let pr2 ← read_arr pr1.2 3
        let pr3 ← read_arr pr2.2 36
        let pr4 ← read_arr pr3.2 4
        let pr5 ← read_arr pr4.2 6
        let pr6 ← read_arr pr5.2 6
        let pr7 ← read_arr pr6.2 1
        pure (some ({ board := torch_permute_201 (np_reshape_hwc flat C)
                      place_pos := pr1.1
                      place_type := pr2.1
                      slide_from := pr3.1
                      slide_dir := pr4.1
                      slide_pickup := pr5.1
                      slide_len := pr6.1
                      z := pr7.1.getD 0 [] }, pr7.2))

lemma read_arr_ok (s : List Nat) (n : Nat) (h : 4 * n ≤ s.length) :
    read_arr s n = .ok (chunkWords (s.take (4 * n)), s.drop (4 * n)) := by
  have hl : (s.take (4 * n)).length = 4 * n := by rw [List.length_take]; omega
  simp [read_arr, hl]

lemma read_arr_err (s : List Nat) (n : Nat) (h : s.length < 4 * n) :
    read_arr s n = .error .truncatedRecord := by
  have hl : (s.take (4 * n)).length ≠ 4 * n := by rw [List.length_take]; omega
  simp [read_arr, hl]
  omega

lemma chunkWords_length : ∀ (b : List Nat), (chunkWords b).length = b.length / 4
  | [] => rfl
  | [a] => by
      have he : chunkWords [a] = [] := rfl
      simp [he]
  | [a, b] => by
      have he : chunkWords [a, b] = [] := rfl
      simp [he]
  | [a, b, c] => by
      have he : chunkWords [a, b, c] = [] := rfl
      simp [he]
  | b0 :: b1 :: b2 :: b3 :: rest => by
      have he : chunkWords (b0 :: b1 :: b2 :: b3 :: rest)
          = [b0, b1, b2, b3] :: chunkWords rest := rfl
      rw [he, List.length_cons, chunkWords_length rest]
      simp [List.length_cons]
      omega

/-- A zero-byte board-tensor read breaks the loop: clean end of
stream. -/
lemma readRecord_break (C : Nat) (s : List Nat)
    (h : s.take (4 * (BOARD_N * BOARD_N * C)) = []) :
    readRecord C s = .ok none := by
  unfold readRecord
  simp [h]

/-- A nonzero but short board-tensor read raises the `ValueError` from
`np.frombuffer` (length not a multiple of 4) or from `reshape` (wrong
element count). -/
lemma readRecord_shortboard (C : Nat) (s : List Nat) (hs : s ≠ [])
    (hlen : s.length < 4 * (36 * C)) :
    readRecord C s = .error .valueError := by
  have hfe : BOARD_N * BOARD_N * C = 36 * C := by norm_num [BOARD_N]
  have htake : s.take (4 * (36 * C)) = s := by
    apply List.take_of_length_le
    omega
  unfold readRecord
  rw [hfe]
  simp only [htake]
  rw [if_neg hs]
  unfold np_frombuffer_f32
  by_cases hm : s.length % 4 = 0
  · rw [if_pos hm]
    have hchunk : (chunkWords s).length ≠ 36 * C := by
      rw [chunkWords_length]; omega
    simp only [hchunk]
    simp
    intro hcon
    exact absurd hcon hchunk
  · rw [if_neg hm]

lemma except_bind_ok {ε α β : Type} (a : α) (f : α → Except ε β) :
    (Except.ok a : Except ε α) >>= f = f a := rfl

lemma except_bind_error {ε α β : Type} (e : ε) (f : α → Except ε β) :
    (Except.error e : Except ε α) >>= f = Except.error e := rfl

/-- When a full board-tensor block is available, the board decode
succeeds and the iteration continues with the seven fixed-length
reads. -/
lemma readRecord_boardok (C : Nat) (s : List Nat) (hC : 0 < C)
    (hboard : 4 * (36 * C) ≤ s.length) :
    readRecord C s = (do
      let pr1 ← read_arr (s.drop (4 * (36 * C))) 36
      let pr2 ← read_arr pr1.2 3
      let pr3 ← read_arr pr2.2 36
      let pr4 ← read_arr pr3.2 4
      let pr5 ← read_arr pr4.2 6
      let pr6 ← read_arr pr5.2 6
      let pr7 ← read_arr pr6.2 1
      pure (some ({ board := torch_permute_201
                      (np_reshape_hwc (chunkWords (s.take (4 * (36 * C)))) C)
                    place_pos := pr1.1
                    place_type := pr2.1
                    slide_from := pr3.1
                    slide_dir := pr4.1
                    slide_pickup := pr5.1
                    slide_len := pr6.1
                    z := pr7.1.getD 0 [] }, pr7.2))) := by
  have hfe : BOARD_N * BOARD_N * C = 36 * C := by norm_num [BOARD_N]
  have hblen : (s.take (4 * (36 * C))).length = 4 * (36 * C) := by
    rw [List.length_take]; omega
  have hbne : s.take (4 * (36 * C)) ≠ [] := by
    intro hcon
    rw [hcon] at hblen
    simp at hblen
    omega
  have hcl : (chunkWords (s.take (4 * (36 * C)))).length = 36 * C := by
    rw [chunkWords_length, hblen]; omega
  unfold readRecord np_frombuffer_f32
  rw [hfe]
  simp only []
  rw [if_neg hbne, if_pos (by rw [hblen]; omega)]
  simp only [hcl]
  simp

/-- A short read in any of the six target vectors or the outcome scalar
raises `EOFError("Truncated record")`. -/
lemma readRecord_shorttail (C : Nat) (s : List Nat) (hC : 0 < C)
    (hboard : 4 * (36 * C) ≤ s.length) (htail : s.length < 4 * (36 * C) + 368) :
    readRecord C s = .error .truncatedRecord := by
  rw [readRecord_boardok C s hC hboard]
  have l0 : (s.drop (4 * (36 * C))).length = s.length - 4 * (36 * C) :=
    List.length_drop ..
  have l1 : ((s.drop (4 * (36 * C))).drop (4 * 36)).length
      = s.length - 4 * (36 * C) - 4 * 36 := by rw [List.length_drop, l0]
  have l2 : (((s.drop (4 * (36 * C))).drop (4 * 36)).drop (4 * 3)).length
      = s.length - 4 * (36 * C) - 4 * 36 - 4 * 3 := by rw [List.length_drop, l1]
  have l3 : ((((s.drop (4 * (36 * C))).drop (4 * 36)).drop (4 * 3)).drop (4 * 36)).length
      = s.length - 4 * (36 * C) - 4 * 36 - 4 * 3 - 4 * 36 := by rw [List.length_drop, l2]
  have l4 : (((((s.drop (4 * (36 * C))).drop (4 * 36)).drop (4 * 3)).drop (4 * 36)).drop
      (4 * 4)).length = s.length - 4 * (36 * C) - 4 * 36 - 4 * 3 - 4 * 36 - 4 * 4 := by
    rw [List.length_drop, l3]
  have l5 : ((((((s.drop (4 * (36 * C))).drop (4 * 36)).drop (4 * 3)).drop (4 * 36)).drop
      (4 * 4)).drop (4 * 6)).length
      = s.length - 4 * (36 * C) - 4 * 36 - 4 * 3 - 4 * 36 - 4 * 4 - 4 * 6 := by
    rw [List.length_drop, l4]
  have l6 : (((((((s.drop (4 * (36 * C))).drop (4 * 36)).drop (4 * 3)).drop (4 * 36)).drop
      (4 * 4)).drop (4 * 6)).drop (4 * 6)).length
      = s.length - 4 * (36 * C) - 4 * 36 - 4 * 3 - 4 * 36 - 4 * 4 - 4 * 6 - 4 * 6 := by
    rw [List.length_drop, l5]
  rcases Nat.lt_or_ge (s.length - 4 * (36 * C)) (4 * 36) with h1 | h1
  · rw [read_arr_err (s.drop (4 * (36 * C))) 36 (by omega), except_bind_error]
  rw [read_arr_ok (s.drop (4 * (36 * C))) 36 (by omega), except_bind_ok]
  rcases Nat.lt_or_ge (s.length - 4 * (36 * C)) (4 * 36 + 4 * 3) with h2 | h2
  · rw [read_arr_err ((s.drop (4 * (36 * C))).drop (4 * 36)) 3 (by omega),
      except_bind_error]
  rw [read_arr_ok ((s.drop (4 * (36 * C))).drop (4 * 36)) 3 (by omega), except_bind_ok]
  rcases Nat.lt_or_ge (s.length - 4 * (36 * C)) (4 * 36 + 4 * 3 + 4 * 36) with h3 | h3
  · rw [read_arr_err (((s.drop (4 * (36 * C))).drop (4 * 36)).drop (4 * 3)) 36
      (by omega), except_bind_error]
  rw [read_arr_ok (((s.drop (4 * (36 * C))).drop (4 * 36)).drop (4 * 3)) 36 (by omega),
    except_bind_ok]
  rcases Nat.lt_or_ge (s.length - 4 * (36 * C)) (4 * 36 + 4 * 3 + 4 * 36 + 4 * 4)
    with h4 | h4
  · rw [read_arr_err ((((s.drop (4 * (36 * C))).drop (4 * 36)).drop (4 * 3)).drop
      (4 * 36)) 4 (by omega), except_bind_error]
  rw [read_arr_ok ((((s.drop (4 * (36 * C))).drop (4 * 36)).drop (4 * 3)).drop (4 * 36))
    4 (by omega), except_bind_ok]
  rcases Nat.lt_or_ge (s.length - 4 * (36 * C))
    (4 * 36 + 4 * 3 + 4 * 36 + 4 * 4 + 4 * 6) with h5 | h5
  · rw [read_arr_err (((((s.drop (4 * (36 * C))).drop (4 * 36)).drop (4 * 3)).drop
      (4 * 36)).drop (4 * 4)) 6 (by omega), except_bind_error]
  rw [read_arr_ok (((((s.drop (4 * (36 * C))).drop (4 * 36)).drop (4 * 3)).drop
    (4 * 36)).drop (4 * 4)) 6 (by omega), except_bind_ok]
  rcases Nat.lt_or_ge (s.length - 4 * (36 * C))
    (4 * 36 + 4 * 3 + 4 * 36 + 4 * 4 + 4 * 6 + 4 * 6) with h6 | h6
  · rw [read_arr_err ((((((s.drop (4 * (36 * C))).drop (4 * 36)).drop (4 * 3)).drop
      (4 * 36)).drop (4 * 4)).drop (4 * 6)) 6 (by omega), except_bind_error]
  rw [read_arr_ok ((((((s.drop (4 * (36 * C))).drop (4 * 36)).drop (4 * 3)).drop
    (4 * 36)).drop (4 * 4)).drop (4 * 6)) 6 (by omega), except_bind_ok]
  have h7 : s.length - 4 * (36 * C)
      < 4 * 36 + 4 * 3 + 4 * 36 + 4 * 4 + 4 * 6 + 4 * 6 + 4 * 1 := by omega
  rw [read_arr_err (((((((s.drop (4 * (36 * C))).drop (4 * 36)).drop (4 * 3)).drop
    (4 * 36)).drop (4 * 4)).drop (4 * 6)).drop (4 * 6)) 1 (by omega), except_bind_error]

/-- A complete record decodes successfully: the board block is the
first `4*36*C` bytes, then the six vectors and the scalar in their
fixed on-disk order; the rest of the stream is returned for the next
iteration. -/
lemma readRecord_complete (C : Nat) (s : List Nat) (hC : 0 < C)
    (hlen : 4 * (36 * C) + 368 ≤ s.length) :
    readRecord C s = .ok (some
      ({ board := torch_permute_201 (np_reshape_hwc (chunkWords (s.take (4 * (36 * C)))) C)
         place_pos := chunkWords ((s.drop (4 * (36 * C))).take (4 * 36))
         place_type := chunkWords (((s.drop (4 * (36 * C))).drop (4 * 36)).take (4 * 3))
         slide_from := chunkWords ((((s.drop (4 * (36 * C))).drop (4 * 36)).drop
           (4 * 3)).take (4 * 36))
         slide_dir := chunkWords (((((s.drop (4 * (36 * C))).drop (4 * 36)).drop
           (4 * 3)).drop (4 * 36)).take (4 * 4))
         slide_pickup := chunkWords ((((((s.drop (4 * (36 * C))).drop (4 * 36)).drop
           (4 * 3)).drop (4 * 36)).drop (4 * 4)).take (4 * 6))
         slide_len := chunkWords (((((((s.drop (4 * (36 * C))).drop (4 * 36)).drop
           (4 * 3)).drop (4 * 36)).drop (4 * 4)).drop (4 * 6)).take (4 * 6))
         z := (chunkWords ((((((((s.drop (4 * (36 * C))).drop (4 * 36)).drop
           (4 * 3)).drop (4 * 36)).drop (4 * 4)).drop (4 * 6)).drop (4 * 6)).take
           (4 * 1))).getD 0 [] },
       (((((((s.drop (4 * (36 * C))).drop (4 * 36)).drop (4 * 3)).drop (4 * 36)).drop
         (4 * 4)).drop (4 * 6)).drop (4 * 6)).drop (4 * 1))) := by
  rw [readRecord_boardok C s hC (by omega)]
  have l0 : (s.drop (4 * (36 * C))).length = s.length - 4 * (36 * C) :=
    List.length_drop ..
  have l1 : ((s.drop (4 * (36 * C))).drop (4 * 36)).length
      = s.length - 4 * (36 * C) - 4 * 36 := by rw [List.length_drop, l0]
  have l2 : (((s.drop (4 * (36 * C))).drop (4 * 36)).drop (4 * 3)).length
      = s.length - 4 * (36 * C) - 4 * 36 - 4 * 3 := by rw [List.length_drop, l1]
  have l3 : ((((s.drop (4 * (36 * C))).drop (4 * 36)).drop (4 * 3)).drop (4 * 36)).length
      = s.length - 4 * (36 * C) - 4 * 36 - 4 * 3 - 4 * 36 := by rw [List.length_drop, l2]
  have l4 : (((((s.drop (4 * (36 * C))).drop (4 * 36)).drop (4 * 3)).drop (4 * 36)).drop
      (4 * 4)).length = s.length - 4 * (36 * C) - 4 * 36 - 4 * 3 - 4 * 36 - 4 * 4 := by
    rw [List.length_drop, l3]
  have l5 : ((((((s.drop (4 * (36 * C))).drop (4 * 36)).drop (4 * 3)).drop (4 * 36)).drop
      (4 * 4)).drop (4 * 6)).length
      = s.length - 4 * (36 * C) - 4 * 36 - 4 * 3 - 4 * 36 - 4 * 4 - 4 * 6 := by
    rw [List.length_drop, l4]
  have l6 : (((((((s.drop (4 * (36 * C))).drop (4 * 36)).drop (4 * 3)).drop (4 * 36)).drop
      (4 * 4)).drop (4 * 6)).drop (4 * 6)).length
      = s.length - 4 * (36 * C) - 4 * 36 - 4 * 3 - 4 * 36 - 4 * 4 - 4 * 6 - 4 * 6 := by
    rw [List.length_drop, l5]
  rw [read_arr_ok (s.drop (4 * (36 * C))) 36 (by omega), except_bind_ok]
  rw [read_arr_ok ((s.drop (4 * (36 * C))).drop (4 * 36)) 3 (by omega), except_bind_ok]
  rw [read_arr_ok (((s.drop (4 * (36 * C))).drop (4 * 36)).drop (4 * 3)) 36 (by omega),
    except_bind_ok]
  rw [read_arr_ok ((((s.drop (4 * (36 * C))).drop (4 * 36)).drop (4 * 3)).drop (4 * 36))
    4 (by omega), except_bind_ok]
  rw [read_arr_ok (((((s.drop (4 * (36 * C))).drop (4 * 36)).drop (4 * 3)).drop
    (4 * 36)).drop (4 * 4)) 6 (by omega), except_bind_ok]
  rw [read_arr_ok ((((((s.drop (4 * (36 * C))).drop (4 * 36)).drop (4 * 3)).drop
    (4 * 36)).drop (4 * 4)).drop (4 * 6)) 6 (by omega), except_bind_ok]
  rw [read_arr_ok (((((((s.drop (4 * (36 * C))).drop (4 * 36)).drop (4 * 3)).drop
    (4 * 36)).drop (4 * 4)).drop (4 * 6)).drop (4 * 6)) 1 (by omega), except_bind_ok]
  rfl

/-- Each successfully parsed record consumes at least one byte, so the
streaming loop terminates. -/
lemma readRecord_rest_lt (C : Nat) (s : List Nat) (rec : SampleW) (rest : List Nat)
    (h : readRecord C s = .ok (some (rec, rest))) : rest.length < s.length := by
  by_cases hbuf : s.take (4 * (BOARD_N * BOARD_N * C)) = []
  · rw [readRecord_break C s hbuf] at h
    cases h
  · have hC : 0 < C := by
      rcases Nat.eq_zero_or_pos C with h0 | h0
      · exfalso; apply hbuf; rw [h0]; simp
      · exact h0
    have hs : s ≠ [] := by
      intro he; apply hbuf; rw [he]; simp
    rcases Nat.lt_or_ge s.length (4 * (36 * C)) with hl | hl
    · rw [readRecord_shortboard C s hs hl] at h
      cases h
    · rcases Nat.lt_or_ge s.length (4 * (36 * C) + 368) with ht | ht
      · rw [readRecord_shorttail C s hC hl ht] at h
        cases h
      · rw [readRecord_complete C s hC ht] at h
        have hr : rest = (((((((s.drop (4 * (36 * C))).drop (4 * 36)).drop (4 * 3)).drop
            (4 * 36)).drop (4 * 4)).drop (4 * 6)).drop (4 * 6)).drop (4 * 1) := by
          injection h with h1
          injection h1 with h2
          exact (congrArg Prod.snd h2).symm
        rw [hr]
        simp only [List.length_drop]
        omega

/-- The streaming `while True` loop of `TakBinDataset.__iter__`
(modelled without augmentation: the sequence of decoded raw records,
or the first error raised). -/
def readLoop (C : Nat) (s : List Nat) : Except DatasetError (List SampleW) :=
  match hrec : readRecord C s with
  | .error e => .error e
  | .ok none => .ok []
  | .ok (some (rec, rest)) =>
    match readLoop C rest with
    | .error e => .error e
    | .ok rs => .ok (rec :: rs)
termination_by s.length
decreasing_by exact readRecord_rest_lt C s rec rest hrec

/-- The full reader: validate the magic token, decode the channel count
and the (unused) record-count hint, then stream records. -/
def takbin_read (file : List Nat) : Except DatasetError (List SampleW) :=
  if file.take 8 ≠ MAGIC then .error .badMagic
  else
    match le32_decode ((file.drop 8).take 4) with
    | none => .error .structError
    | some channels_in =>
      match le32_decode ((file.drop 12).take 4) with
      | none => .error .structError
      | some _count => readLoop channels_in (file.drop 16)

/-- The lookup-miss branch of the loop body is a silent skip: the
accumulator is returned unchanged (`continue`), so that direction's mass
would be dropped, not raised on. -/
lemma remap_accum_miss (d out : List ℚ) (i : Nat) (delta : Int × Int)
    (h : vec_to_idx delta = none) : remap_accum d out i delta = some out := by
  unfold remap_accum
  rw [h]

/-- For every valid dihedral operation and every canonical direction,
the transformed offset resolves by exact lookup: the lookup-miss branch
is unreachable. -/
lemma dir_resolve_aux : ∀ (rot : Fin 4) (flip : Bool) (i : Fin 4),
    ((apply_to_vec (vecs.getD i (0, 0)).1 (vecs.getD i (0, 0)).2 rot flip).bind
      vec_to_idx).isSome := by
  decide

/-- For a rotation outside 0..3, `remap_dirs_probs` fails loud at
`transform_rc` before any lookup is attempted. -/
lemma remap_invalid_rot (d : List ℚ) (rot : Nat) (flip : Bool) (h : 4 ≤ rot) :
    remap_dirs_probs d rot flip = none := by
  have htr : transform_rc 2 2 rot flip = none := by
    unfold transform_rc
    rw [if_neg (by omega), if_neg (by omega), if_neg (by omega), if_neg (by omega)]
  have ha : apply_to_vec (-1) 0 rot flip = none := by
    unfold apply_to_vec
    rw [htr]
  unfold remap_dirs_probs
  simp [vecs, List.enum, List.enumFrom, ha]

lemma transform_rc_inj_aux : ∀ (rot : Fin 4) (flip : Bool) (r c r2 c2 : Fin 6),
    transform_rc r c rot flip = transform_rc r2 c2 rot flip →
    (r : Nat) = r2 ∧ (c : Nat) = c2 := by
  decide

lemma transform_rc_surj_aux : ∀ (rot : Fin 4) (flip : Bool) (rr cc : Fin 6),
    ∃ r c : Fin 6, transform_rc r c rot flip = some ((rr : Nat), (cc : Nat)) := by
  decide

lemma transform_rc_id_aux : ∀ r c : Fin 6,
    transform_rc r c 0 false = some ((r : Nat), (c : Nat)) := by
  decide

lemma closure_aux : ∀ (rA : Fin 4) (fA : Bool) (rB : Fin 4) (fB : Bool),
    ∃ (rC : Fin 4) (fC : Bool), ∀ i : Fin 36,
      (transform_index i rA fA).bind (fun j => transform_index j rB fB)
        = transform_index i rC fC := by
  decide

lemma readLoop_break (C : Nat) (s : List Nat)
    (h : s.take (4 * (BOARD_N * BOARD_N * C)) = []) : readLoop C s = .ok [] := by
  have hb := readRecord_break C s h
  rw [readLoop]
  rw [hb]

lemma readLoop_error (C : Nat) (s : List Nat) (e : DatasetError)
    (h : readRecord C s = .error e) : readLoop C s = .error e := by
  rw [readLoop, h]

lemma readLoop_cons (C : Nat) (s : List Nat) (rec : SampleW) (rest : List Nat)
    (h : readRecord C s = .ok (some (rec, rest))) :
    readLoop C s = (match readLoop C rest with
      | .error e => .error e
      | .ok rs => .ok (rec :: rs)) := by
  rw [readLoop, h]

/-- Serialize a word vector back into its byte string (the shape of a
record segment on disk). -/
def bytesOfWords : List Word → List Nat
  | [] => []
  | w :: ws => w ++ bytesOfWords ws

lemma bytesOfWords_length (ws : List Word) (h : ∀ w ∈ ws, w.length = 4) :
    (bytesOfWords ws).length = 4 * ws.length := by
  induction ws with
  | nil => rfl
  | cons w t ih =>
    have hw := h w (List.mem_cons_self w t)
    have ht := ih (fun x hx => h x (List.mem_cons_of_mem w hx))
    show (w ++ bytesOfWords t).length = 4 * (t.length + 1)
    rw [List.length_append, hw, ht]
    ring

lemma chunkWords_bytesOfWords (ws : List Word) (h : ∀ w ∈ ws, w.length = 4) :
    chunkWords (bytesOfWords ws) = ws := by
  induction ws with
  | nil => rfl
  | cons w t ih =>
    obtain ⟨a, b, c, d, rfl⟩ := list_len4 w (h w (List.mem_cons_self w t))
    have ht := ih (fun x hx => h x (List.mem_cons_of_mem _ hx))
    show chunkWords (a :: b :: c :: d :: bytesOfWords t) = [a, b, c, d] :: t
    have he : chunkWords (a :: b :: c :: d :: bytesOfWords t)
        = [a, b, c, d] :: chunkWords (bytesOfWords t) := rfl
    rw [he, ht]

/-- A file with the magic token and a well-formed header hands its body
to the streaming loop with the decoded channel count. -/
lemma takbin_read_header (C cnt : Nat) (h1 h2 body : List Nat)
    (hd1 : le32_decode h1 = some C) (hl1 : h1.length = 4)
    (hd2 : le32_decode h2 = some cnt) (hl2 : h2.length = 4) :
    takbin_read (MAGIC ++ (h1 ++ (h2 ++ body))) = readLoop C body := by
  have hm : (MAGIC ++ (h1 ++ (h2 ++ body))).take 8 = MAGIC := List.take_left' rfl
  have hdm : (MAGIC ++ (h1 ++ (h2 ++ body))).drop 8 = h1 ++ (h2 ++ body) :=
    List.drop_left' rfl
  have h8 : (MAGIC ++ (h1 ++ (h2 ++ body))).drop 8 = h1 ++ (h2 ++ body) :=
    List.drop_left' rfl
  have ht1 : ((MAGIC ++ (h1 ++ (h2 ++ body))).drop 8).take 4 = h1 := by
    rw [h8]; exact List.take_left' hl1
  have h12 : (MAGIC ++ (h1 ++ (h2 ++ body))).drop 12 = h2 ++ body := by
    have hcomp : (MAGIC ++ (h1 ++ (h2 ++ body))).drop 12
        = ((MAGIC ++ (h1 ++ (h2 ++ body))).drop 8).drop 4 := by
      rw [List.drop_drop]
    rw [hcomp, h8]
    exact List.drop_left' hl1
  have ht2 : ((MAGIC ++ (h1 ++ (h2 ++ body))).drop 12).take 4 = h2 := by
    rw [h12]; exact List.take_left' hl2
  have h16 : (MAGIC ++ (h1 ++ (h2 ++ body))).drop 16 = body := by
    have hcomp : (MAGIC ++ (h1 ++ (h2 ++ body))).drop 16
        = ((MAGIC ++ (h1 ++ (h2 ++ body))).drop 12).drop 4 := by
      rw [List.drop_drop]
    rw [hcomp, h12]
    exact List.drop_left' hl2
  unfold takbin_read
  rw [hm, ht1, hd1, ht2, hd2, h16]
  simp

/-- A body holding exactly one well-formed record streams to exactly
that record: the first `4*36*C` bytes are the board block, decoded
height-width-channel and permuted to (C, H, W), and the seven trailing
segments decode to the six target vectors and the outcome word. -/
lemma readLoop_single (C : Nat) (words v1 v2 v3 v4 v5 v6 vz : List Word) (hC : 0 < C)
    (hw : ∀ w ∈ words, w.length = 4) (hwl : words.length = 36 * C)
    (k1 : ∀ w ∈ v1, w.length = 4) (k1l : v1.length = 36)
    (k2 : ∀ w ∈ v2, w.length = 4) (k2l : v2.length = 3)
    (k3 : ∀ w ∈ v3, w.length = 4) (k3l : v3.length = 36)
    (k4 : ∀ w ∈ v4, w.length = 4) (k4l : v4.length = 4)
    (k5 : ∀ w ∈ v5, w.length = 4) (k5l : v5.length = 6)
    (k6 : ∀ w ∈ v6, w.length = 4) (k6l : v6.length = 6)
    (kz : ∀ w ∈ vz, w.length = 4) (kzl : vz.length = 1) :
    readLoop C (bytesOfWords words ++ (bytesOfWords v1 ++ (bytesOfWords v2 ++
      (bytesOfWords v3 ++ (bytesOfWords v4 ++ (bytesOfWords v5 ++
      (bytesOfWords v6 ++ bytesOfWords vz)))))))
    = .ok [{ board := torch_permute_201 (np_reshape_hwc words C)
             place_pos := v1
             place_type := v2
             slide_from := v3
             slide_dir := v4
             slide_pickup := v5
             slide_len := v6
             z := vz.getD 0 [] }] := by
  have lw : (bytesOfWords words).length = 4 * (36 * C) := by
    rw [bytesOfWords_length words hw, hwl]
  have l1 : (bytesOfWords v1).length = 4 * 36 := by
    rw [bytesOfWords_length v1 k1, k1l]
  have l2 : (bytesOfWords v2).length = 4 * 3 := by
    rw [bytesOfWords_length v2 k2, k2l]
  have l3 : (bytesOfWords v3).length = 4 * 36 := by
    rw [bytesOfWords_length v3 k3, k3l]
  have l4 : (bytesOfWords v4).length = 4 * 4 := by
    rw [bytesOfWords_length v4 k4, k4l]
  have l5 : (bytesOfWords v5).length = 4 * 6 := by
    rw [bytesOfWords_length v5 k5, k5l]
  have l6 : (bytesOfWords v6).length = 4 * 6 := by
    rw [bytesOfWords_length v6 k6, k6l]
  have lz : (bytesOfWords vz).length = 4 * 1 := by
    rw [bytesOfWords_length vz kz, kzl]
  have lbody : (bytesOfWords words ++ (bytesOfWords v1 ++ (bytesOfWords v2 ++
      (bytesOfWords v3 ++ (bytesOfWords v4 ++ (bytesOfWords v5 ++
      (bytesOfWords v6 ++ bytesOfWords vz))))))).length = 4 * (36 * C) + 368 := by
    simp only [List.length_append]
    omega
  have tk0 : (bytesOfWords words ++ (bytesOfWords v1 ++ (bytesOfWords v2 ++
      (bytesOfWords v3 ++ (bytesOfWords v4 ++ (bytesOfWords v5 ++
      (bytesOfWords v6 ++ bytesOfWords vz))))))).take (4 * (36 * C))
      = bytesOfWords words := List.take_left' lw
  have dp0 : (bytesOfWords words ++ (bytesOfWords v1 ++ (bytesOfWords v2 ++
      (bytesOfWords v3 ++ (bytesOfWords v4 ++ (bytesOfWords v5 ++
      (bytesOfWords v6 ++ bytesOfWords vz))))))).drop (4 * (36 * C))
      = bytesOfWords v1 ++ (bytesOfWords v2 ++ (bytesOfWords v3 ++ (bytesOfWords v4 ++
        (bytesOfWords v5 ++ (bytesOfWords v6 ++ bytesOfWords vz))))) :=
    List.drop_left' lw
  rw [readLoop_cons C _ _ _ (readRecord_complete C _ hC (by rw [lbody]))]
  rw [dp0, tk0]
  rw [List.take_left' l1, List.drop_left' l1]
  rw [List.take_left' l2, List.drop_left' l2]
  rw [List.take_left' l3, List.drop_left' l3]
  rw [List.take_left' l4, List.drop_left' l4]
  rw [List.take_left' l5, List.drop_left' l5]
  rw [List.take_left' l6, List.drop_left' l6]
  rw [List.take_of_length_le (by rw [lz]), List.drop_eq_nil_of_le (by rw [lz])]
  rw [readLoop_break C [] (by simp)]
  rw [chunkWords_bytesOfWords words hw, chunkWords_bytesOfWords v1 k1,
    chunkWords_bytesOfWords v2 k2, chunkWords_bytesOfWords v3 k3,
    chunkWords_bytesOfWords v4 k4, chunkWords_bytesOfWords v5 k5,
    chunkWords_bytesOfWords v6 k6, chunkWords_bytesOfWords vz kz]

/-- A concrete board block for channel count 2, with 72 pairwise
distinct words. -/
def c4words : List Word := List.map (fun k : Nat => [k, 0, 0, 0]) (List.range 72)

/-- An all-zero word vector of the given length. -/
def c4vec (n : Nat) : List Word := List.replicate n [0, 0, 0, 0]

/-- The trailing record segments of the concrete 2-channel file. -/
def c4tail : List Nat :=
  bytesOfWords (c4vec 36) ++ (bytesOfWords (c4vec 3) ++ (bytesOfWords (c4vec 36) ++
    (bytesOfWords (c4vec 4) ++ (bytesOfWords (c4vec 6) ++ (bytesOfWords (c4vec 6) ++
    bytesOfWords (c4vec 1))))))

/-- C1: for every rotation in 0..3, flip, channel and in-range cell
(r, c), the transformed tensor holds the value of `x[ch][r][c]` at
`[ch][transform_rc (r, c)]`: the counter-clockwise `torch.rot90`
primitive driven with the complementary amount `(-rot) % 4`, followed by
the column mirror when `flip`, agrees with the clockwise index algebra
of `transform_rc`, channel-wise. -/
theorem C1_transform_board_tensor_agrees {α : Type} (x : Nat → Nat → Nat → α)
    (rot : Nat) (flip : Bool) (ch r c rr cc : Nat)
    (hrot : rot < 4) (hr : r < 6) (hc : c < 6)
    (h : transform_rc r c rot flip = some (rr, cc)) :
    transform_board_tensor_cw x rot flip ch rr cc = x ch r c :=
  transform_board_correct x rot flip ch r c rr cc hrot hr hc h

theorem C1_witness :
    (1 < 4 ∧ 2 < 6 ∧ 3 < 6 ∧ transform_rc 2 3 1 true = some (3, 2)) ∧
    transform_board_tensor_cw (fun ch r c => (ch, r, c)) 1 true 0 3 2 = (0, 2, 3) :=
  ⟨⟨by decide, by decide, by decide, by decide⟩,
   C1_transform_board_tensor_agrees (fun ch r c => (ch, r, c)) 1 true 0 2 3 3 2
     (by decide) (by decide) (by decide) (by decide)⟩

/-- C2: for each of the 8 dihedral operations, `transform_rc` is
injective and surjective on the 6×6 grid, and the (0, false) operation
is the identity on every cell. -/
theorem C2_transform_rc_bijective :
    (∀ rot : Nat, rot < 4 → ∀ flip : Bool,
      (∀ r c r2 c2 : Nat, r < 6 → c < 6 → r2 < 6 → c2 < 6 →
        transform_rc r c rot flip = transform_rc r2 c2 rot flip → r = r2 ∧ c = c2) ∧
      (∀ rr cc : Nat, rr < 6 → cc < 6 → ∃ r c : Nat, r < 6 ∧ c < 6 ∧
        transform_rc r c rot flip = some (rr, cc))) ∧
    (∀ r c : Nat, r < 6 → c < 6 → transform_rc r c 0 false = some (r, c)) := by
  refine ⟨?_, ?_⟩
  · intro rot hrot flip
    refine ⟨?_, ?_⟩
    · intro r c r2 c2 hr hc hr2 hc2 heq
      exact transform_rc_inj_aux ⟨rot, hrot⟩ flip ⟨r, hr⟩ ⟨c, hc⟩ ⟨r2, hr2⟩ ⟨c2, hc2⟩ heq
    · intro rr cc hrr hcc
      obtain ⟨r, c, h⟩ := transform_rc_surj_aux ⟨rot, hrot⟩ flip ⟨rr, hrr⟩ ⟨cc, hcc⟩
      exact ⟨r, c, r.isLt, c.isLt, h⟩
  · intro r c hr hc
    exact transform_rc_id_aux ⟨r, hr⟩ ⟨c, hc⟩

theorem C2_witness :
    (transform_rc 0 0 1 false = transform_rc 0 0 1 false → 0 = 0 ∧ 0 = 0) ∧
    (∃ r c : Nat, r < 6 ∧ c < 6 ∧ transform_rc r c 1 false = some (0, 5)) ∧
    transform_rc 4 2 0 false = some (4, 2) :=
  ⟨fun h => (C2_transform_rc_bijective.1 1 (by decide) false).1 0 0 0 0
      (by decide) (by decide) (by decide) (by decide) h,
   (C2_transform_rc_bijective.1 1 (by decide) false).2 0 5 (by decide) (by decide),
   C2_transform_rc_bijective.2 4 2 (by decide) (by decide)⟩

/-- C3: for every valid operation and length-36 input,
`permute_policy_pos` returns a same-length vector with
`out[transform_index i] = p[i]` for every `i`, and the index map is
injective, so each input element lands exactly once at the index its
cell maps to. -/
theorem C3_permute_policy_pos_spec (p : List ℚ) (rot : Nat) (flip : Bool)
    (hrot : rot < 4) (hp : p.length = 36) :
    ∃ out, permute_policy_pos p rot flip = some out ∧ out.length = 36 ∧
      (∀ i j : Nat, i < 36 → transform_index i rot flip = some j →
        out.getD j 0 = p.getD i 0) ∧
      (∀ i1 i2 j : Nat, i1 < 36 → i2 < 36 → transform_index i1 rot flip = some j →
        transform_index i2 rot flip = some j → i1 = i2) := by
  obtain ⟨out, h1, h2, h3⟩ := permute_spec p rot flip hrot hp
  refine ⟨out, h1, h2, ?_, ?_⟩
  · intro i j hi hj
    rw [tIdx_some rot flip i hrot hi] at hj
    injection hj with hj
    rw [← hj]
    exact h3 i hi
  · intro i1 i2 j hi1 hi2 hj1 hj2
    rw [tIdx_some rot flip i1 hrot hi1] at hj1
    rw [tIdx_some rot flip i2 hrot hi2] at hj2
    injection hj1 with k1
    injection hj2 with k2
    exact tIdx_inj rot flip i1 i2 hrot hi1 hi2 (by rw [k1, k2])

theorem C3_witness :
    (List.map (fun k : Nat => (k : ℚ)) (List.range 36)).length = 36 ∧
    ∃ out, permute_policy_pos (List.map (fun k : Nat => (k : ℚ)) (List.range 36)) 1 false
        = some out ∧ out.length = 36 ∧
      (∀ i j : Nat, i < 36 → transform_index i 1 false = some j →
        out.getD j 0 = (List.map (fun k : Nat => (k : ℚ)) (List.range 36)).getD i 0) ∧
      (∀ i1 i2 j : Nat, i1 < 36 → i2 < 36 → transform_index i1 1 false = some j →
        transform_index i2 1 false = some j → i1 = i2) :=
  ⟨by simp,
   C3_permute_policy_pos_spec (List.map (fun k : Nat => (k : ℚ)) (List.range 36)) 1 false
     (by decide) (by simp)⟩

/-- C5 (counterexample): at an explicit unresolvable delta, the loop
body of `remap_dirs_probs` does not raise: it returns the accumulator
unchanged (`continue`), silently dropping that direction's mass. -/
theorem C5_counterexample :
    vec_to_idx (2, 0) = none ∧
    remap_accum [1, 0, 0, 0] [0, 0, 0, 0] 0 (2, 0) = some [0, 0, 0, 0] := by
  constructor
  · decide
  · rfl

/-- C5 (amended): the lookup-miss branch silently skips the direction
(returns the accumulator unchanged, dropping that direction's mass)
rather than raising; however, the branch is unreachable: for every
rotation in 0..3 and flip, every canonical direction's transformed
offset resolves by exact lookup, and for a rotation outside 0..3 the
function fails loud earlier, inside `transform_rc`. -/
theorem C5_miss_branch_skips_but_unreachable :
    (∀ (d out : List ℚ) (i : Nat) (delta : Int × Int),
      vec_to_idx delta = none → remap_accum d out i delta = some out) ∧
    (∀ (rot : Nat) (flip : Bool) (i : Nat), rot < 4 → i < 4 →
      ((apply_to_vec (vecs.getD i (0, 0)).1 (vecs.getD i (0, 0)).2 rot flip).bind
        vec_to_idx).isSome) ∧
    (∀ (d : List ℚ) (rot : Nat) (flip : Bool), 4 ≤ rot →
      remap_dirs_probs d rot flip = none) := by
  refine ⟨remap_accum_miss, ?_, ?_⟩
  · intro rot flip i hrot hi
    exact dir_resolve_aux ⟨rot, hrot⟩ flip ⟨i, hi⟩
  · intro d rot flip h
    exact remap_invalid_rot d rot flip h

theorem C5_witness :
    (vec_to_idx (0, 2) = none ∧ remap_accum [] [] 0 (0, 2) = some []) ∧
    ((apply_to_vec (vecs.getD 2 (0, 0)).1 (vecs.getD 2 (0, 0)).2 1 true).bind
      vec_to_idx).isSome ∧
    remap_dirs_probs [1, 0, 0, 0] 4 false = none :=
  ⟨⟨by decide, C5_miss_branch_skips_but_unreachable.1 [] [] 0 (0, 2) (by decide)⟩,
   C5_miss_branch_skips_but_unreachable.2.1 1 true 2 (by decide) (by decide),
   C5_miss_branch_skips_but_unreachable.2.2 [1, 0, 0, 0] 4 false (by decide)⟩

/-- C7: with augmentation disabled the producer yields exactly the raw
record; with augmentation enabled it yields exactly 8 samples, one per
(rotation, flip) pair enumerated rotation-outer flip-inner (sample `k`
is the transform by rotation `k / 2` and flip `k % 2 == 1`), and the
first sample — the identity element (0, false) — is the raw record
itself: board tensor, all six target vectors and the outcome scalar. -/
theorem C7_producer_eight_samples (rec : RawRecord)
    (h1 : rec.place_pos.length = 36) (h2 : rec.slide_from.length = 36)
    (h3 : rec.slide_dir.length = 4) :
    producerSamples false rec = some [rec] ∧
    ∃ l, producerSamples true rec = some l ∧ l.length = 8 ∧ l.head? = some rec ∧
      ∀ k, k < 8 → l[k]? = applyOp rec (k / 2) (k % 2 == 1) := by
  constructor
  · rfl
  · obtain ⟨l, hl, h8, hh, hk⟩ := augment_eval rec h1 h2 h3
    exact ⟨l, by simpa [producerSamples] using hl, h8, hh, hk⟩

theorem C7_witness :
    producerSamples false
      { board := fun _ _ _ => 0
        place_pos := List.replicate 36 0
        place_type := [0, 0, 0]
        slide_from := List.replicate 36 0
        slide_dir := [0, 0, 0, 0]
        slide_pickup := List.replicate 6 0
        slide_len := List.replicate 6 0
        z := 0 }
      = some [{ board := fun _ _ _ => 0
                place_pos := List.replicate 36 0
                place_type := [0, 0, 0]
                slide_from := List.replicate 36 0
                slide_dir := [0, 0, 0, 0]
                slide_pickup := List.replicate 6 0
                slide_len := List.replicate 6 0
                z := 0 }] ∧
    ∃ l, producerSamples true
      { board := fun _ _ _ => 0
        place_pos := List.replicate 36 0
        place_type := [0, 0, 0]
        slide_from := List.replicate 36 0
        slide_dir := [0, 0, 0, 0]
        slide_pickup := List.replicate 6 0
        slide_len := List.replicate 6 0
        z := 0 } = some l ∧ l.length = 8 ∧
      l.head? = some
        { board := fun _ _ _ => 0
          place_pos := List.replicate 36 0
          place_type := [0, 0, 0]
          slide_from := List.replicate 36 0
          slide_dir := [0, 0, 0, 0]
          slide_pickup := List.replicate 6 0
          slide_len := List.replicate 6 0
          z := 0 } ∧
      ∀ k, k < 8 → l[k]? = applyOp
        { board := fun _ _ _ => 0
          place_pos := List.replicate 36 0
          place_type := [0, 0, 0]
          slide_from := List.replicate 36 0
          slide_dir := [0, 0, 0, 0]
          slide_pickup := List.replicate 6 0
          slide_len := List.replicate 6 0
          z := 0 } (k / 2) (k % 2 == 1) :=
  C7_producer_eight_samples _ (by simp) (by simp) (by simp)

/-- C8: every one of the 8 operations conserves total mass: the sum of
the permuted cell vector equals the sum of the input, and the sum of the
remapped direction vector equals the sum of the input. -/
theorem C8_mass_conservation (rot : Nat) (flip : Bool) (hrot : rot < 4) :
    (∀ p : List ℚ, p.length = 36 →
      ∃ out, permute_policy_pos p rot flip = some out ∧ out.sum = p.sum) ∧
    (∀ d : List ℚ, d.length = 4 →
      ∃ out, remap_dirs_probs d rot flip = some out ∧ out.sum = d.sum) :=
  ⟨fun p hp => permute_sum p rot flip hrot hp,
   fun d hd => remap_spec d rot flip hrot hd⟩

theorem C8_witness :
    (∀ p : List ℚ, p.length = 36 →
      ∃ out, permute_policy_pos p 3 true = some out ∧ out.sum = p.sum) ∧
    (∀ d : List ℚ, d.length = 4 →
      ∃ out, remap_dirs_probs d 3 true = some out ∧ out.sum = d.sum) :=
  C8_mass_conservation 3 true (by decide)

/-- C9: composition closure — for every ordered pair of the 8 dihedral
operations there is a single operation among the 8 whose index action
equals the composite, exhaustively over all 36 indices. -/
theorem C9_composition_closure (rA : Nat) (fA : Bool) (rB : Nat) (fB : Bool)
    (hA : rA < 4) (hB : rB < 4) :
    ∃ rC : Nat, rC < 4 ∧ ∃ fC : Bool, ∀ i : Nat, i < 36 →
      (transform_index i rA fA).bind (fun j => transform_index j rB fB)
        = transform_index i rC fC := by
  obtain ⟨rC, fC, h⟩ := closure_aux ⟨rA, hA⟩ fA ⟨rB, hB⟩ fB
  exact ⟨rC, rC.isLt, fC, fun i hi => h ⟨i, hi⟩⟩

theorem C9_witness :
    ∃ rC : Nat, rC < 4 ∧ ∃ fC : Bool, ∀ i : Nat, i < 36 →
      (transform_index i 1 true).bind (fun j => transform_index j 2 false)
        = transform_index i rC fC :=
  C9_composition_closure 1 true 2 false (by decide) (by decide)

/-- C10: for every raw record and every (rotation, flip) pair, the
sample produced by the augmentation loop body carries the three
categorical target vectors (lengths 3, 6, 6) and the outcome scalar of
the raw record unchanged. -/
theorem C10_categorical_passthrough (rec s : RawRecord) (rot : Nat) (flip : Bool)
    (h : applyOp rec rot flip = some s) :
    s.place_type = rec.place_type ∧ s.slide_pickup = rec.slide_pickup ∧
    s.slide_len = rec.slide_len ∧ s.z = rec.z :=
  ⟨(applyOp_fields rec s rot flip h).1,
   (applyOp_fields rec s rot flip h).2.1,
   (applyOp_fields rec s rot flip h).2.2.1,
   (applyOp_fields rec s rot flip h).2.2.2.1⟩

theorem C10_witness :
    ∃ s, applyOp
      { board := fun _ _ _ => 0
        place_pos := List.replicate 36 0
        place_type := [1, 2, 3]
        slide_from := List.replicate 36 0
        slide_dir := [0, 0, 0, 0]
        slide_pickup := List.replicate 6 0
        slide_len := List.replicate 6 0
        z := 5 } 1 true = some s ∧
      s.place_type = [1, 2, 3] ∧ s.z = 5 := by
  obtain ⟨s, hs⟩ := applyOp_some
    { board := fun _ _ _ => 0
      place_pos := List.replicate 36 0
      place_type := [1, 2, 3]
      slide_from := List.replicate 36 0
      slide_dir := [0, 0, 0, 0]
      slide_pickup := List.replicate 6 0
      slide_len := List.replicate 6 0
      z := 5 } 1 true (by decide) (by simp) (by simp) (by simp)
  obtain ⟨hpt, -, -, hz⟩ := C10_categorical_passthrough _ s 1 true hs
  exact ⟨s, hs, hpt, hz⟩

/-- C6: a zero-byte board read ends the stream cleanly (`.ok`); a
nonzero-but-short board read raises the frombuffer/reshape `ValueError`;
a short read of any of the six target vectors or the outcome raises
`EOFError("Truncated record")`; and a file with a valid header whose
body is cut 1 byte short of a full board tensor raises an error rather
than silently yielding no records. All raises are distinct from the
clean end of stream. -/
theorem C6_end_of_stream_vs_truncation :
    (∀ (C : Nat) (s : List Nat), s.take (4 * (BOARD_N * BOARD_N * C)) = [] →
      readLoop C s = .ok []) ∧
    (∀ (C : Nat) (s : List Nat), s ≠ [] → s.length < 4 * (36 * C) →
      readLoop C s = .error .valueError) ∧
    (∀ (C : Nat) (s : List Nat), 0 < C → 4 * (36 * C) ≤ s.length →
      s.length < 4 * (36 * C) + 368 → readLoop C s = .error .truncatedRecord) ∧
    (∀ (C cnt : Nat) (h1 h2 body : List Nat), le32_decode h1 = some C →
      h1.length = 4 → le32_decode h2 = some cnt → h2.length = 4 → 0 < C →
      body.length = 4 * (36 * C) - 1 →
      takbin_read (MAGIC ++ (h1 ++ (h2 ++ body))) = .error .valueError) := by
  refine ⟨?_, ?_, ?_, ?_⟩
  · intro C s h
    exact readLoop_break C s h
  · intro C s hs hl
    exact readLoop_error C s _ (readRecord_shortboard C s hs hl)
  · intro C s hC hb ht
    exact readLoop_error C s _ (readRecord_shorttail C s hC hb ht)
  · intro C cnt h1 h2 body hd1 hl1 hd2 hl2 hC hblen
    rw [takbin_read_header C cnt h1 h2 body hd1 hl1 hd2 hl2]
    have hbne : body ≠ [] := by
      intro he
      rw [he] at hblen
      simp at hblen
      omega
    exact readLoop_error C body _ (readRecord_shortboard C body hbne (by omega))

theorem C6_witness :
    readLoop 1 [] = .ok [] ∧
    readLoop 1 (List.replicate 100 0) = .error .valueError ∧
    readLoop 1 (List.replicate 200 0) = .error .truncatedRecord ∧
    takbin_read (MAGIC ++ ([1, 0, 0, 0] ++ ([0, 0, 0, 0] ++ List.replicate 143 0)))
      = .error .valueError :=
  ⟨C6_end_of_stream_vs_truncation.1 1 [] (by decide),
   C6_end_of_stream_vs_truncation.2.1 1 (List.replicate 100 0) (by decide) (by decide),
   C6_end_of_stream_vs_truncation.2.2.1 1 (List.replicate 200 0) (by decide) (by decide)
     (by decide),
   C6_end_of_stream_vs_truncation.2.2.2 1 0 [1, 0, 0, 0] [0, 0, 0, 0]
     (List.replicate 143 0) (by decide) (by decide) (by decide) (by decide) (by decide)
     (by decide)⟩

/-- C4 (amended): the reader decodes each record's board-tensor block
height-width-channel (row-major with channel innermost): the float32
word at element offset (r*N + c)*C + ch of the block becomes element
[ch][r][c] of the sample's board tensor; the six target vectors and the
outcome decode in on-disk order. -/
theorem C4_board_block_channel_last (C cnt : Nat) (h1 h2 : List Nat)
    (words v1 v2 v3 v4 v5 v6 vz : List Word)
    (hd1 : le32_decode h1 = some C) (hl1 : h1.length = 4)
    (hd2 : le32_decode h2 = some cnt) (hl2 : h2.length = 4) (hC : 0 < C)
    (hw : ∀ w ∈ words, w.length = 4) (hwl : words.length = 36 * C)
    (k1 : ∀ w ∈ v1, w.length = 4) (k1l : v1.length = 36)
    (k2 : ∀ w ∈ v2, w.length = 4) (k2l : v2.length = 3)
    (k3 : ∀ w ∈ v3, w.length = 4) (k3l : v3.length = 36)
    (k4 : ∀ w ∈ v4, w.length = 4) (k4l : v4.length = 4)
    (k5 : ∀ w ∈ v5, w.length = 4) (k5l : v5.length = 6)
    (k6 : ∀ w ∈ v6, w.length = 4) (k6l : v6.length = 6)
    (kz : ∀ w ∈ vz, w.length = 4) (kzl : vz.length = 1) :
    ∃ sample, takbin_read (MAGIC ++ (h1 ++ (h2 ++ (bytesOfWords words ++
        (bytesOfWords v1 ++ (bytesOfWords v2 ++ (bytesOfWords v3 ++
        (bytesOfWords v4 ++ (bytesOfWords v5 ++ (bytesOfWords v6 ++
        bytesOfWords vz)))))))))) = .ok [sample] ∧
      (∀ ch r c : Nat, sample.board ch r c
        = words.getD ((r * BOARD_N + c) * C + ch) []) ∧
      sample.place_pos = v1 ∧ sample.place_type = v2 ∧ sample.slide_from = v3 ∧
      sample.slide_dir = v4 ∧ sample.slide_pickup = v5 ∧ sample.slide_len = v6 ∧
      sample.z = vz.getD 0 [] := by
  rw [takbin_read_header C cnt h1 h2 _ hd1 hl1 hd2 hl2,
    readLoop_single C words v1 v2 v3 v4 v5 v6 vz hC hw hwl k1 k1l k2 k2l k3 k3l
      k4 k4l k5 k5l k6 k6l kz kzl]
  exact ⟨_, rfl, fun ch r c => rfl, rfl, rfl, rfl, rfl, rfl, rfl, rfl⟩

/-- C4 (counterexample): on a concrete channel-count-2 single-record
file, the decoded board tensor does not follow the claimed channel-major
layout (offset (ch*N + r)*N + c): the block is channel-last. -/
theorem C4_counterexample :
    ∃ sample, takbin_read (MAGIC ++ ([2, 0, 0, 0] ++ ([0, 0, 0, 0] ++
        (bytesOfWords c4words ++ c4tail)))) = .ok [sample] ∧
      ¬ (∀ ch r c : Nat, sample.board ch r c
          = c4words.getD ((ch * BOARD_N + r) * BOARD_N + c) []) := by
  rw [takbin_read_header 2 0 [2, 0, 0, 0] [0, 0, 0, 0] _ (by decide) (by decide)
    (by decide) (by decide)]
  unfold c4tail
  rw [readLoop_single 2 c4words (c4vec 36) (c4vec 3) (c4vec 36) (c4vec 4) (c4vec 6)
    (c4vec 6) (c4vec 1) (by decide) (by decide) (by decide) (by decide) (by decide)
    (by decide) (by decide) (by decide) (by decide) (by decide) (by decide)
    (by decide) (by decide) (by decide) (by decide) (by decide) (by decide)]
  refine ⟨_, rfl, ?_⟩
  intro hcl
  have hbad := hcl 0 0 1
  exact absurd hbad (by decide)

theorem C4_witness :
    ∃ sample, takbin_read (MAGIC ++ ([1, 0, 0, 0] ++ ([0, 0, 0, 0] ++
        (bytesOfWords (c4vec 36) ++ (bytesOfWords (c4vec 36) ++ (bytesOfWords (c4vec 3)
        ++ (bytesOfWords (c4vec 36) ++ (bytesOfWords (c4vec 4) ++ (bytesOfWords
        (c4vec 6) ++ (bytesOfWords (c4vec 6) ++ bytesOfWords (c4vec 1)))))))))))
      = .ok [sample] ∧
      (∀ ch r c : Nat, sample.board ch r c
        = (c4vec 36).getD ((r * BOARD_N + c) * 1 + ch) []) ∧
      sample.place_pos = c4vec 36 ∧ sample.place_type = c4vec 3 ∧
      sample.slide_from = c4vec 36 ∧ sample.slide_dir = c4vec 4 ∧
      sample.slide_pickup = c4vec 6 ∧ sample.slide_len = c4vec 6 ∧
      sample.z = (c4vec 1).getD 0 [] :=
  C4_board_block_channel_last 1 0 [1, 0, 0, 0] [0, 0, 0, 0] (c4vec 36) (c4vec 36)
    (c4vec 3) (c4vec 36) (c4vec 4) (c4vec 6) (c4vec 6) (c4vec 1) (by decide)
    (by decide) (by decide) (by decide) (by decide) (by decide) (by decide)
    (by decide) (by decide) (by decide) (by decide) (by decide) (by decide)
    (by decide) (by decide) (by decide) (by decide) (by decide) (by decide)
    (by decide) (by decide)

